import Mathlib

/-!
Verification of the `web-collector` backend bookmark store and its HTTP layer.

The Go source (`apps/backend/internal/server`, `apps/backend/internal/model`)
keeps bookmarks in an in-memory slice guarded by a lock, together with a
`nextID` counter.  We embed the store as a pure state record and each
operation as a function on that state; `time.Now()` is modelled by threading
an explicit `now : Nat` timestamp into the operations that stamp times.
-/

namespace WebCollector

/-- `model.Bookmark`: `{ID, Title, URL, CreatedAt}`.  `CreatedAt` (Go
`time.Time`) is modelled as a `Nat` timestamp. -/
structure Bookmark where
  ID : String
  Title : String
  URL : String
  CreatedAt : Nat
  deriving Repr, DecidableEq

/-- `server.BookmarkStore`: the slice of bookmarks plus the `nextID`
counter.  The `sync.RWMutex` serialises access in Go; in the embedding every
operation is an atomic function of the state. -/
structure BookmarkStore where
  bookmarks : List Bookmark
  nextID : Nat
  deriving Repr, DecidableEq

/-- Go's `fmt.Sprintf("%d", n)`: the decimal string rendering of `n`,
via Mathlib's little-endian `Nat.digits 10`. -/
def natToDec (n : Nat) : String :=
  if n = 0 then "0" else (((Nat.digits 10 n).map Nat.digitChar).reverse).asString

/-- `server.NewBookmarkStore`: the store seeded with three sample bookmarks
and `nextID = 4`.  The three `time.Now()` stamps are the parameters. -/
def NewBookmarkStore (t1 t2 t3 : Nat) : BookmarkStore :=
  { bookmarks :=
      [ { ID := "1", Title := "Google", URL := "https://google.com", CreatedAt := t1 }
      , { ID := "2", Title := "GitHub", URL := "https://github.com", CreatedAt := t2 }
      , { ID := "3", Title := "Go 官方文档", URL := "https://go.dev/doc/", CreatedAt := t3 } ]
    nextID := 4 }

/-- `BookmarkStore.GetAll`: returns (a copy of) the bookmark slice, in
insertion order.  The state is not modified. -/
def GetAll (s : BookmarkStore) : List Bookmark :=
  s.bookmarks

/-- `BookmarkStore.Create`: assigns id `fmt.Sprintf("%d", nextID)`, stamps
`time.Now()` (the `now` argument), increments `nextID` and appends the new
record.  Returns the new record and the new state. -/
def Create (s : BookmarkStore) (title url : String) (now : Nat) :
    Bookmark × BookmarkStore :=
  let bookmark : Bookmark :=
    { ID := natToDec s.nextID, Title := title, URL := url, CreatedAt := now }
  (bookmark, { bookmarks := s.bookmarks ++ [bookmark], nextID := s.nextID + 1 })

/-- `BookmarkStore.GetByID`: linear scan for the first record with the given
id; the Go `(Bookmark, bool)` result is modelled as an `Option`. -/
def GetByID (s : BookmarkStore) (id : String) : Option Bookmark :=
  s.bookmarks.find? (fun b => b.ID == id)

/-- The field rewrite `Update` applies to the record it finds: a non-empty
`title` replaces `Title`, a non-empty `url` replaces `URL`; empty arguments
leave the field unchanged. -/
def applyUpdate (title url : String) (b : Bookmark) : Bookmark :=
  { b with
    Title := if title = "" then b.Title else title
    URL := if url = "" then b.URL else url }

/-- Loop body of `BookmarkStore.Update`: scan for the first record with the
given id, rewrite it in place, return it; later records are untouched and on
a miss the list is returned as is. -/
def updateList (id title url : String) : List Bookmark → Option Bookmark × List Bookmark
  | [] => (none, [])
  | b :: rest =>
    if b.ID = id then
      (some (applyUpdate title url b), applyUpdate title url b :: rest)
    else
      let r := updateList id title url rest
      (r.1, b :: r.2)

/-- `BookmarkStore.Update`: locates the record by id under the write lock,
rewrites the non-empty fields, and returns `(record, true)` — modelled as
`some record` — or `(zero, false)` — modelled as `none` — on a miss. -/
def Update (s : BookmarkStore) (id title url : String) :
    Option Bookmark × BookmarkStore :=
  let r := updateList id title url s.bookmarks
  (r.1, { s with bookmarks := r.2 })

/-- Loop body of `BookmarkStore.Delete`: remove the first record with the
given id (`append(s.bookmarks[:i], s.bookmarks[i+1:]...)`), keeping the rest
in order; report whether a record was removed. -/
def deleteList (id : String) : List Bookmark → Bool × List Bookmark
  | [] => (false, [])
  | b :: rest =>
    if b.ID = id then
      (true, rest)
    else
      let r := deleteList id rest
      (r.1, b :: r.2)

/-- `BookmarkStore.Delete`: removes the record with the given id, returning
whether it was found. -/
def Delete (s : BookmarkStore) (id : String) : Bool × BookmarkStore :=
  let r := deleteList id s.bookmarks
  (r.1, { s with bookmarks := r.2 })

/-- `model.CreateBookmarkRequest`: both fields carry `binding:"required"`. -/
structure CreateBookmarkRequest where
  Title : String
  URL : String
  deriving Repr, DecidableEq

/-- `model.UpdateBookmarkRequest`: no binding constraints. -/
structure UpdateBookmarkRequest where
  Title : String
  URL : String
  deriving Repr, DecidableEq

/-- A parsed JSON request body for the bookmark endpoints: each of the
`title`/`url` fields may be absent.  A syntactically invalid body is
modelled as `none` at the call sites (`Option BookmarkBody`). -/
structure BookmarkBody where
  title : Option String
  url : Option String
  deriving Repr, DecidableEq

/-- `c.ShouldBindJSON(&req)` for `CreateBookmarkRequest`: fails on an
unparsable body and, through `binding:"required"`, when either field is
absent or holds the zero value `""`. -/
def bindCreateRequest (body : Option BookmarkBody) : Option CreateBookmarkRequest :=
  match body with
  | none => none
  | some j =>
    match j.title, j.url with
    | some t, some u => if t = "" ∨ u = "" then none else some { Title := t, URL := u }
    | _, _ => none

/-- `c.ShouldBindJSON(&req)` for `UpdateBookmarkRequest`: fails only on an
unparsable body; absent fields decode to the zero value `""`. -/
def bindUpdateRequest (body : Option BookmarkBody) : Option UpdateBookmarkRequest :=
  match body with
  | none => none
  | some j => some { Title := j.title.getD "", URL := j.url.getD "" }

/-- `server.handleCreateBookmark`: 400 on a binding failure without touching
the store, otherwise `Create` and 201 with the new record. -/
def handleCreateBookmark (s : BookmarkStore) (body : Option BookmarkBody)
    (now : Nat) : Nat × Option Bookmark × BookmarkStore :=
  match bindCreateRequest body with
  | none => (400, none, s)
  | some req =>
    let r := Create s req.Title req.URL now
    (201, some r.1, r.2)

/-- `server.handleGetBookmarks`: 200 with `GetAll`. -/
def handleGetBookmarks (s : BookmarkStore) : Nat × List Bookmark :=
  (200, GetAll s)

/-- `server.handleGetBookmark`: 200 with the record, or 404. -/
def handleGetBookmark (s : BookmarkStore) (id : String) : Nat × Option Bookmark :=
  match GetByID s id with
  | none => (404, none)
  | some b => (200, some b)

/-- `server.handleUpdateBookmark`: 400 on a binding failure, 404 when the id
is absent, otherwise 200 with the updated record. -/
def handleUpdateBookmark (s : BookmarkStore) (id : String)
    (body : Option BookmarkBody) : Nat × Option Bookmark × BookmarkStore :=
  match bindUpdateRequest body with
  | none => (400, none, s)
  | some req =>
    let r := Update s id req.Title req.URL
    match r.1 with
    | none => (404, none, r.2)
    | some b => (200, some b, r.2)

/-- `server.handleDeleteBookmark`: 404 when the id is absent, otherwise
200. -/
def handleDeleteBookmark (s : BookmarkStore) (id : String) :
    Nat × BookmarkStore :=
  let r := Delete s id
  if r.1 then (200, r.2) else (404, r.2)

/-- Store states reachable from the seeded initial state by the store's own
mutating operations. -/
inductive Reachable : BookmarkStore → Prop where
  | seed (t1 t2 t3 : Nat) : Reachable (NewBookmarkStore t1 t2 t3)
  | create {s : BookmarkStore} (title url : String) (now : Nat)
      (h : Reachable s) : Reachable (Create s title url now).2
  | update {s : BookmarkStore} (id title url : String)
      (h : Reachable s) : Reachable (Update s id title url).2
  | del {s : BookmarkStore} (id : String)
      (h : Reachable s) : Reachable (Delete s id).2

/-- Store states reachable from the seeded initial state through the HTTP
handlers (the only mutation paths the router exposes). -/
inductive HReachable : BookmarkStore → Prop where
  | seed (t1 t2 t3 : Nat) : HReachable (NewBookmarkStore t1 t2 t3)
  | post {s : BookmarkStore} (body : Option BookmarkBody) (now : Nat)
      (h : HReachable s) : HReachable (handleCreateBookmark s body now).2.2
  | put {s : BookmarkStore} (id : String) (body : Option BookmarkBody)
      (h : HReachable s) : HReachable (handleUpdateBookmark s id body).2.2
  | del {s : BookmarkStore} (id : String)
      (h : HReachable s) : HReachable (handleDeleteBookmark s id).2

/-- The ids currently carried by the store's records, in order. -/
def idsOf (s : BookmarkStore) : List String :=
  s.bookmarks.map Bookmark.ID

/-- Id discipline of the store: ids are pairwise distinct and each one is
the decimal rendering of a positive counter value strictly below
`nextID`. -/
def StoreIdInv (s : BookmarkStore) : Prop :=
  (idsOf s).Nodup ∧ ∀ i ∈ idsOf s, ∃ n, 0 < n ∧ n < s.nextID ∧ i = natToDec n

/-! ### Decimal rendering -/

theorem asString_injective : Function.Injective List.asString :=
  fun _ _ h => congrArg String.data h

theorem digitChar_inj_lt (a b : Nat) (ha : a < 10) (hb : b < 10) :
    Nat.digitChar a = Nat.digitChar b → a = b := by
  interval_cases a <;> interval_cases b <;> decide

theorem map_digitChar_inj : ∀ {l1 l2 : List Nat}, (∀ d ∈ l1, d < 10) →
    (∀ d ∈ l2, d < 10) → l1.map Nat.digitChar = l2.map Nat.digitChar → l1 = l2
  | [], [], _, _, _ => rfl
  | [], _ :: _, _, _, h => by simp at h
  | _ :: _, [], _, _, h => by simp at h
  | a :: l1, b :: l2, h1, h2, h => by
    simp only [List.map_cons, List.cons.injEq] at h
    have ha := h1 a (List.mem_cons_self a l1)
    have hb := h2 b (List.mem_cons_self b l2)
    have := digitChar_inj_lt a b ha hb h.1
    subst this
    have := map_digitChar_inj (fun d hd => h1 d (List.mem_cons_of_mem _ hd))
      (fun d hd => h2 d (List.mem_cons_of_mem _ hd)) h.2
    rw [this]

theorem natToDec_eq_zero_iff {n : Nat} : natToDec n = "0" ↔ n = 0 := by
  constructor
  · intro h
    by_contra hn
    simp only [natToDec, if_neg hn] at h
    have h2 : ((Nat.digits 10 n).map Nat.digitChar).reverse = ['0'] :=
      asString_injective h
    have h3 : (Nat.digits 10 n).map Nat.digitChar = ['0'] := by
      have := congrArg List.reverse h2
      simpa using this
    have h4 : Nat.digits 10 n = [0] := by
      have h0 : ([0] : List Nat).map Nat.digitChar = ['0'] := rfl
      refine map_digitChar_inj (fun d hd => Nat.digits_lt_base (by norm_num) hd)
        ?_ (h3.trans h0.symm)
      intro d hd; simp at hd; omega
    have := Nat.ofDigits_digits 10 n
    rw [h4] at this
    simp [Nat.ofDigits_cons, Nat.ofDigits_nil] at this
    omega
  · intro h; simp [h, natToDec]

theorem natToDec_inj {m n : Nat} (h : natToDec m = natToDec n) : m = n := by
  by_cases hm : m = 0
  · subst hm
    have : natToDec n = "0" := by rw [← h]; simp [natToDec]
    exact (natToDec_eq_zero_iff.mp this).symm
  · by_cases hn : n = 0
    · subst hn
      have : natToDec m = "0" := by rw [h]; simp [natToDec]
      exact natToDec_eq_zero_iff.mp this
    · simp only [natToDec, if_neg hm, if_neg hn] at h
      have h2 := asString_injective h
      have h3 := List.reverse_injective h2
      have h4 := map_digitChar_inj (fun d hd => Nat.digits_lt_base (by norm_num) hd)
        (fun d hd => Nat.digits_lt_base (by norm_num) hd) h3
      have hm' := Nat.ofDigits_digits 10 m
      rw [h4, Nat.ofDigits_digits 10 n] at hm'
      exact hm'.symm

theorem natToDec_digit {k : Nat} (h1 : 0 < k) (h2 : k < 10) :
    natToDec k = [Nat.digitChar k].asString := by
  have hk : k ≠ 0 := Nat.pos_iff_ne_zero.mp h1
  rw [natToDec, if_neg hk, Nat.digits_def' (by norm_num : (1:ℕ) < 10) h1,
    Nat.mod_eq_of_lt h2, Nat.div_eq_of_lt h2, Nat.digits_zero]
  rfl

theorem natToDec_one : natToDec 1 = "1" := by
  rw [natToDec_digit (by norm_num) (by norm_num)]; rfl

theorem natToDec_two : natToDec 2 = "2" := by
  rw [natToDec_digit (by norm_num) (by norm_num)]; rfl

theorem natToDec_three : natToDec 3 = "3" := by
  rw [natToDec_digit (by norm_num) (by norm_num)]; rfl

theorem natToDec_four : natToDec 4 = "4" := by
  rw [natToDec_digit (by norm_num) (by norm_num)]; rfl

/-! ### Lemmas about the scan loops of `Update` and `Delete` -/

theorem applyUpdate_ID (title url : String) (b : Bookmark) :
    (applyUpdate title url b).ID = b.ID := rfl

theorem applyUpdate_CreatedAt (title url : String) (b : Bookmark) :
    (applyUpdate title url b).CreatedAt = b.CreatedAt := rfl

theorem updateList_map_ID (id title url : String) :
    ∀ l : List Bookmark,
      ((updateList id title url l).2).map Bookmark.ID = l.map Bookmark.ID
  | [] => rfl
  | b :: rest => by
    by_cases h : b.ID = id
    · simp [updateList, h, applyUpdate]
    · simp [updateList, h, updateList_map_ID id title url rest]

theorem updateList_not_found {id : String} (title url : String) :
    ∀ {l : List Bookmark}, (∀ b ∈ l, b.ID ≠ id) →
      updateList id title url l = (none, l)
  | [], _ => rfl
  | b :: rest, h => by
    have hb : b.ID ≠ id := h b (List.mem_cons_self b rest)
    simp [updateList, hb,
      updateList_not_found title url (fun x hx => h x (List.mem_cons_of_mem _ hx))]

theorem updateList_found {id : String} (title url : String) :
    ∀ {l : List Bookmark} {b : Bookmark},
      l.find? (fun x => x.ID == id) = some b →
      (updateList id title url l).1 = some (applyUpdate title url b) ∧
      ((updateList id title url l).2).find? (fun x => x.ID == id) =
        some (applyUpdate title url b)
  | [], b, h => by simp at h
  | a :: rest, b, h => by
    by_cases ha : a.ID = id
    · rw [List.find?_cons_of_pos _ (by simp [ha])] at h
      have hab : a = b := by injection h
      subst hab
      refine ⟨by simp [updateList, ha], ?_⟩
      simp only [updateList, if_pos ha]
      exact List.find?_cons_of_pos _ (by simp [applyUpdate_ID, ha])
    · rw [List.find?_cons_of_neg _ (by simp [ha])] at h
      have ih := updateList_found title url (l := rest) (b := b) h
      refine ⟨by simp [updateList, ha, ih.1], ?_⟩
      simp only [updateList, if_neg ha]
      rw [List.find?_cons_of_neg _ (by simp [ha])]
      exact ih.2

theorem applyUpdate_empty (b : Bookmark) : applyUpdate "" "" b = b := by
  simp [applyUpdate]

theorem updateList_empty_args (id : String) :
    ∀ l : List Bookmark, (updateList id "" "" l).2 = l
  | [] => rfl
  | b :: rest => by
    by_cases h : b.ID = id
    · simp [updateList, h, applyUpdate_empty]
    · simp [updateList, h, updateList_empty_args id rest]

theorem updateList_mem {id title url : String} :
    ∀ {l : List Bookmark} {b' : Bookmark}, b' ∈ (updateList id title url l).2 →
      ∃ b ∈ l, b' = b ∨ b' = applyUpdate title url b
  | [], b', h => by simp [updateList] at h
  | a :: rest, b', h => by
    by_cases ha : a.ID = id
    · simp only [updateList, if_pos ha, List.mem_cons] at h
      rcases h with h | h
      · exact ⟨a, List.mem_cons_self a rest, Or.inr h⟩
      · exact ⟨b', List.mem_cons_of_mem _ h, Or.inl rfl⟩
    · simp only [updateList, if_neg ha, List.mem_cons] at h
      rcases h with h | h
      · exact ⟨a, List.mem_cons_self a rest, Or.inl h⟩
      · obtain ⟨b, hb, hcase⟩ := updateList_mem (l := rest) h
        exact ⟨b, List.mem_cons_of_mem _ hb, hcase⟩

theorem deleteList_sublist (id : String) :
    ∀ l : List Bookmark, List.Sublist (deleteList id l).2 l
  | [] => List.Sublist.refl []
  | b :: rest => by
    by_cases h : b.ID = id
    · simp [deleteList, h]
    · simpa [deleteList, h] using (deleteList_sublist id rest).cons₂ b

theorem deleteList_eq_eraseP (id : String) :
    ∀ l : List Bookmark, (deleteList id l).2 = l.eraseP (fun x => x.ID == id)
  | [] => rfl
  | b :: rest => by
    by_cases h : b.ID = id
    · simp [deleteList, h, List.eraseP_cons]
    · simp [deleteList, h, List.eraseP_cons, deleteList_eq_eraseP id rest]

theorem deleteList_not_found {id : String} :
    ∀ {l : List Bookmark}, (∀ b ∈ l, b.ID ≠ id) → deleteList id l = (false, l)
  | [], _ => rfl
  | b :: rest, h => by
    have hb : b.ID ≠ id := h b (List.mem_cons_self b rest)
    simp [deleteList, hb,
      deleteList_not_found (fun x hx => h x (List.mem_cons_of_mem _ hx))]

theorem deleteList_found {id : String} :
    ∀ {l : List Bookmark} {b : Bookmark}, b ∈ l → b.ID = id →
      (deleteList id l).1 = true ∧ ((deleteList id l).2).length + 1 = l.length
  | [], b, hb, _ => by simp at hb
  | a :: rest, b, hb, hid => by
    by_cases ha : a.ID = id
    · simp [deleteList, ha]
    · have hmem : b ∈ rest := by
        rcases List.mem_cons.mp hb with h | h
        · exact absurd (h ▸ hid) ha
        · exact h
      have ih := deleteList_found hmem hid
      simp [deleteList, ha, ih.1, ← ih.2]

theorem find?_ID_eq_none_iff {l : List Bookmark} {id : String} :
    l.find? (fun x => x.ID == id) = none ↔ ∀ b ∈ l, b.ID ≠ id := by
  rw [List.find?_eq_none]
  simp

/-! ## Claim theorems -/

/-- **C10**: the store-level `Create` performs no validation and never
fails: for every pair of strings, including empty ones, it appends a new
record with exactly those field values and returns it, so a record with
empty title or url can enter the store through the store's public
interface. -/
theorem Create_total_no_validation (s : BookmarkStore) (title url : String)
    (now : Nat) :
    (Create s title url now).1.Title = title ∧
    (Create s title url now).1.URL = url ∧
    (Create s title url now).1.CreatedAt = now ∧
    (Create s title url now).1.ID = natToDec s.nextID ∧
    (Create s title url now).2.bookmarks = s.bookmarks ++ [(Create s title url now).1] ∧
    (Create s "" "" now).1 ∈ (Create s "" "" now).2.bookmarks ∧
    (Create s "" "" now).1.Title = "" ∧ (Create s "" "" now).1.URL = "" := by
  refine ⟨rfl, rfl, rfl, rfl, rfl, ?_, rfl, rfl⟩
  simp [Create]

/-- **C8**: `GetAll` returns the sequence of all bookmarks currently in the
store in insertion order; the state is read, not modified, and the returned
sequence is a value: a later `Create` extends the store (new record at the
end, insertion order kept) without affecting what `GetAll` yielded on the
earlier state. -/
theorem GetAll_insertion_order (s : BookmarkStore) (title url : String)
    (now : Nat) :
    GetAll s = s.bookmarks ∧
    GetAll (Create s title url now).2 = GetAll s ++ [(Create s title url now).1] :=
  ⟨rfl, rfl⟩

/-- **C2**: on a present id, `Update` returns the located record with
exactly the non-empty argument fields replaced, `ID` and `CreatedAt`
untouched, and the store then holds that updated record under the id; on an
absent id it reports not-found. -/
theorem Update_field_semantics (s : BookmarkStore) (id title url : String) :
    (∀ b, GetByID s id = some b →
      (Update s id title url).1 = some (applyUpdate title url b) ∧
      (applyUpdate title url b).ID = b.ID ∧
      (applyUpdate title url b).CreatedAt = b.CreatedAt ∧
      (applyUpdate title url b).Title = (if title = "" then b.Title else title) ∧
      (applyUpdate title url b).URL = (if url = "" then b.URL else url) ∧
      GetByID (Update s id title url).2 id = some (applyUpdate title url b)) ∧
    (GetByID s id = none → (Update s id title url).1 = none) := by
  constructor
  · intro b hb
    have h := updateList_found title url (b := b) hb
    exact ⟨h.1, rfl, rfl, rfl, rfl, h.2⟩
  · intro h
    have hall : ∀ b ∈ s.bookmarks, b.ID ≠ id := find?_ID_eq_none_iff.mp h
    show (updateList id title url s.bookmarks).1 = none
    rw [updateList_not_found title url hall]

/-- Witness for C2 at the seeded store: updating the title of id `"2"`. -/
theorem Update_field_semantics_witness :
    (Update (NewBookmarkStore 0 0 0) "2" "T" "").1 =
      some (applyUpdate "T" ""
        { ID := "2", Title := "GitHub", URL := "https://github.com", CreatedAt := 0 }) :=
  ((Update_field_semantics (NewBookmarkStore 0 0 0) "2" "T" "").1
    { ID := "2", Title := "GitHub", URL := "https://github.com", CreatedAt := 0 }
    (by decide)).1

/-- **C4**: on an id absent from the store, `Update` reports not-found and
returns the state exactly unchanged, and `Delete` reports `false` and
returns the state exactly unchanged. -/
theorem not_found_leaves_store_unchanged (s : BookmarkStore)
    (id title url : String) (h : GetByID s id = none) :
    Update s id title url = (none, s) ∧ Delete s id = (false, s) := by
  have hall : ∀ b ∈ s.bookmarks, b.ID ≠ id := find?_ID_eq_none_iff.mp h
  constructor
  · show ((updateList id title url s.bookmarks).1,
      { s with bookmarks := (updateList id title url s.bookmarks).2 }) = (none, s)
    rw [updateList_not_found title url hall]
  · show ((deleteList id s.bookmarks).1,
      { s with bookmarks := (deleteList id s.bookmarks).2 }) = (false, s)
    rw [deleteList_not_found hall]

/-- Witness for C4 at the seeded store with the absent id `"9"`. -/
theorem not_found_leaves_store_unchanged_witness :
    Update (NewBookmarkStore 0 0 0) "9" "T" "U" = (none, NewBookmarkStore 0 0 0) ∧
    Delete (NewBookmarkStore 0 0 0) "9" = (false, NewBookmarkStore 0 0 0) :=
  not_found_leaves_store_unchanged (NewBookmarkStore 0 0 0) "9" "T" "U" (by decide)

/-- **C5**: deleting a present id succeeds, shrinks `GetAll` by exactly one
record — the first one carrying the id — and keeps the remaining records in
their relative order (the result is a sublist); deleting an absent id
reports `false`. -/
theorem Delete_removes_exactly_one (s : BookmarkStore) (id : String)
    (b : Bookmark) (hb : b ∈ s.bookmarks) (hid : b.ID = id) :
    (Delete s id).1 = true ∧
    (GetAll (Delete s id).2).length + 1 = (GetAll s).length ∧
    List.Sublist (GetAll (Delete s id).2) (GetAll s) ∧
    GetAll (Delete s id).2 = (GetAll s).eraseP (fun x => x.ID == id) ∧
    ∀ id' : String, GetByID s id' = none → (Delete s id').1 = false := by
  have h := deleteList_found hb hid
  refine ⟨h.1, h.2, deleteList_sublist id s.bookmarks,
    deleteList_eq_eraseP id s.bookmarks, ?_⟩
  intro id' h'
  have hall := find?_ID_eq_none_iff.mp h'
  show (deleteList id' s.bookmarks).1 = false
  rw [deleteList_not_found hall]

/-- Witness for C5 at the seeded store, deleting id `"2"`. -/
theorem Delete_removes_exactly_one_witness :
    (Delete (NewBookmarkStore 0 0 0) "2").1 = true ∧
    (GetAll (Delete (NewBookmarkStore 0 0 0) "2").2).length + 1 =
      (GetAll (NewBookmarkStore 0 0 0)).length ∧
    List.Sublist (GetAll (Delete (NewBookmarkStore 0 0 0) "2").2)
      (GetAll (NewBookmarkStore 0 0 0)) ∧
    GetAll (Delete (NewBookmarkStore 0 0 0) "2").2 =
      (GetAll (NewBookmarkStore 0 0 0)).eraseP (fun x => x.ID == "2") ∧
    ∀ id' : String, GetByID (NewBookmarkStore 0 0 0) id' = none →
      (Delete (NewBookmarkStore 0 0 0) id').1 = false :=
  Delete_removes_exactly_one (NewBookmarkStore 0 0 0) "2"
    { ID := "2", Title := "GitHub", URL := "https://github.com", CreatedAt := 0 }
    (by decide) (by decide)

/-- **C9**: `Update` with both arguments empty is accepted and is an
identity: it returns the located record unchanged together with the
unchanged store, and at the HTTP layer a `PUT` with an empty JSON body on an
existing id yields 200 with the unchanged record and store. -/
theorem Update_empty_is_identity (s : BookmarkStore) (id : String)
    (b : Bookmark) (h : GetByID s id = some b) :
    Update s id "" "" = (some b, s) ∧
    handleUpdateBookmark s id (some { title := none, url := none }) =
      (200, some b, s) := by
  have hf := updateList_found "" "" (b := b) h
  have hU : Update s id "" "" = (some b, s) := by
    show ((updateList id "" "" s.bookmarks).1,
      { s with bookmarks := (updateList id "" "" s.bookmarks).2 }) = (some b, s)
    rw [hf.1, updateList_empty_args id s.bookmarks, applyUpdate_empty]
  have hb1 : (Update s id "" "").1 = some b := by rw [hU]
  have hb2 : (Update s id "" "").2 = s := by rw [hU]
  refine ⟨hU, ?_⟩
  simp [handleUpdateBookmark, bindUpdateRequest, hb1, hb2]

/-- Each store operation keeps the id discipline `StoreIdInv` and the
positivity of the counter. -/
theorem reachable_aux : ∀ {s : BookmarkStore}, Reachable s →
    StoreIdInv s ∧ 0 < s.nextID := by
  intro s h
  induction h with
  | seed t1 t2 t3 =>
    have hids : idsOf (NewBookmarkStore t1 t2 t3) = ["1", "2", "3"] := rfl
    refine ⟨⟨by rw [hids]; decide, ?_⟩, by norm_num [NewBookmarkStore]⟩
    intro i hi
    rw [hids] at hi
    simp only [List.mem_cons, List.not_mem_nil, or_false] at hi
    rcases hi with rfl | rfl | rfl
    · exact ⟨1, by norm_num, by norm_num [NewBookmarkStore], natToDec_one.symm⟩
    · exact ⟨2, by norm_num, by norm_num [NewBookmarkStore], natToDec_two.symm⟩
    · exact ⟨3, by norm_num, by norm_num [NewBookmarkStore], natToDec_three.symm⟩
  | create title url now h ih =>
    rename_i s'
    obtain ⟨⟨hnd, hdec⟩, hpos⟩ := ih
    have hids : idsOf (Create s' title url now).2 = idsOf s' ++ [natToDec s'.nextID] := by
      simp [Create, idsOf]
    have hnext : (Create s' title url now).2.nextID = s'.nextID + 1 := rfl
    have hfresh : natToDec s'.nextID ∉ idsOf s' := by
      intro hmem
      obtain ⟨n, hn0, hnlt, hne⟩ := hdec _ hmem
      have := natToDec_inj hne
      omega
    refine ⟨⟨?_, ?_⟩, ?_⟩
    · rw [hids, List.nodup_append]
      refine ⟨hnd, List.nodup_singleton _, ?_⟩
      intro i hi hcontra
      simp only [List.mem_singleton] at hcontra
      exact hfresh (hcontra ▸ hi)
    · rw [hids, hnext]
      intro i hi
      rcases List.mem_append.mp hi with hi | hi
      · obtain ⟨n, h1, h2, h3⟩ := hdec i hi
        exact ⟨n, h1, by omega, h3⟩
      · simp only [List.mem_singleton] at hi
        exact ⟨s'.nextID, hpos, by omega, hi⟩
    · rw [hnext]; omega
  | update id title url h ih =>
    rename_i s'
    have hids : idsOf (Update s' id title url).2 = idsOf s' :=
      updateList_map_ID id title url s'.bookmarks
    have hnext : (Update s' id title url).2.nextID = s'.nextID := rfl
    exact ⟨⟨hids ▸ ih.1.1, by rw [hids, hnext]; exact ih.1.2⟩, by rw [hnext]; exact ih.2⟩
  | del id h ih =>
    rename_i s'
    have hsub : List.Sublist (idsOf (Delete s' id).2) (idsOf s') :=
      (deleteList_sublist id s'.bookmarks).map Bookmark.ID
    have hnext : (Delete s' id).2.nextID = s'.nextID := rfl
    refine ⟨⟨List.Nodup.sublist hsub ih.1.1, ?_⟩, by rw [hnext]; exact ih.2⟩
    intro i hi
    rw [hnext]
    exact ih.1.2 i (hsub.subset hi)

/-- **C1**: in every reachable store state the records carry pairwise
distinct ids; each id is the decimal rendering of a positive counter value
strictly below `nextID` (so ids are store-assigned from the monotonically
increasing counter), `Create` always assigns exactly the decimal rendering
of the current `nextID`, and no id present in the store can ever coincide
with an id the store assigns later (counter values `≥ nextID`): ids are
unique within the store's lifetime, never reassigned and never reused after
deletion. -/
theorem reachable_id_discipline (s : BookmarkStore) (h : Reachable s) :
    (idsOf s).Nodup ∧
    (∀ i ∈ idsOf s, ∃ n, 0 < n ∧ n < s.nextID ∧ i = natToDec n) ∧
    (∀ title url now, ((Create s title url now).1).ID = natToDec s.nextID) ∧
    (∀ i ∈ idsOf s, ∀ m, s.nextID ≤ m → i ≠ natToDec m) := by
  obtain ⟨⟨hnd, hdec⟩, hpos⟩ := reachable_aux h
  refine ⟨hnd, hdec, fun _ _ _ => rfl, ?_⟩
  intro i hi m hm hne
  obtain ⟨n, h1, h2, h3⟩ := hdec i hi
  have : n = m := natToDec_inj (h3 ▸ hne)
  omega

/-- Witness for C1 at a concrete reachable state: seed, then delete `"2"`,
then create. -/
theorem reachable_id_discipline_witness :
    (idsOf (Create (Delete (NewBookmarkStore 0 0 0) "2").2 "t" "u" 1).2).Nodup ∧
    (∀ i ∈ idsOf (Create (Delete (NewBookmarkStore 0 0 0) "2").2 "t" "u" 1).2,
      ∃ n, 0 < n ∧ n < (Create (Delete (NewBookmarkStore 0 0 0) "2").2 "t" "u" 1).2.nextID ∧
        i = natToDec n) ∧
    (∀ title url now,
      ((Create (Create (Delete (NewBookmarkStore 0 0 0) "2").2 "t" "u" 1).2 title url now).1).ID =
        natToDec (Create (Delete (NewBookmarkStore 0 0 0) "2").2 "t" "u" 1).2.nextID) ∧
    (∀ i ∈ idsOf (Create (Delete (NewBookmarkStore 0 0 0) "2").2 "t" "u" 1).2,
      ∀ m, (Create (Delete (NewBookmarkStore 0 0 0) "2").2 "t" "u" 1).2.nextID ≤ m →
        i ≠ natToDec m) :=
  reachable_id_discipline _
    (Reachable.create "t" "u" 1 (Reachable.del "2" (Reachable.seed 0 0 0)))

/-- A successful binding of `CreateBookmarkRequest` yields non-empty
fields (`binding:"required"` rejects absent fields and the zero value). -/
theorem bindCreateRequest_nonempty : ∀ {body : Option BookmarkBody}
    {req : CreateBookmarkRequest}, bindCreateRequest body = some req →
    req.Title ≠ "" ∧ req.URL ≠ ""
  | none, _, h => by simp [bindCreateRequest] at h
  | some ⟨none, _⟩, _, h => by simp [bindCreateRequest] at h
  | some ⟨some _, none⟩, _, h => by simp [bindCreateRequest] at h
  | some ⟨some t, some u⟩, req, h => by
    by_cases hc : t = "" ∨ u = ""
    · simp [bindCreateRequest, hc] at h
    · push_neg at hc
      simp only [bindCreateRequest] at h
      rw [if_neg (not_or.mpr ⟨hc.1, hc.2⟩)] at h
      injection h with h2
      subst h2
      exact hc

/-- The field rewrite of `Update` keeps non-empty fields non-empty. -/
theorem applyUpdate_nonempty {b : Bookmark} (title url : String)
    (h : b.Title ≠ "" ∧ b.URL ≠ "") :
    (applyUpdate title url b).Title ≠ "" ∧ (applyUpdate title url b).URL ≠ "" := by
  constructor
  · by_cases ht : title = "" <;> simp [applyUpdate, ht, h.1]
  · by_cases hu : url = "" <;> simp [applyUpdate, hu, h.2]

/-- **C3**: every bookmark in a state reachable through the HTTP handlers
has a non-empty title and a non-empty url: the seed records satisfy this,
the POST handler rejects a body whose title or url is missing or empty with
a 400 without calling `Create`, and updates never empty a field. -/
theorem hreachable_nonempty_fields (s : BookmarkStore) (h : HReachable s) :
    ∀ b ∈ s.bookmarks, b.Title ≠ "" ∧ b.URL ≠ "" := by
  induction h with
  | seed t1 t2 t3 =>
    intro b hb
    simp only [NewBookmarkStore, List.mem_cons, List.not_mem_nil, or_false] at hb
    rcases hb with rfl | rfl | rfl <;> exact ⟨by simp, by simp⟩
  | post body now h ih =>
    rename_i s'
    intro b hb
    cases hbind : bindCreateRequest body with
    | none =>
      simp only [handleCreateBookmark, hbind] at hb
      exact ih b hb
    | some req =>
      simp only [handleCreateBookmark, hbind] at hb
      have hb2 : b ∈ s'.bookmarks ++ [(Create s' req.Title req.URL now).1] := hb
      rcases List.mem_append.mp hb2 with hb3 | hb3
      · exact ih b hb3
      · simp only [List.mem_singleton] at hb3
        subst hb3
        exact bindCreateRequest_nonempty hbind
  | put id body h ih =>
    rename_i s'
    intro b hb
    cases hbind : bindUpdateRequest body with
    | none =>
      simp only [handleUpdateBookmark, hbind] at hb
      exact ih b hb
    | some req =>
      simp only [handleUpdateBookmark, hbind] at hb
      cases hr : (Update s' id req.Title req.URL).1 <;> simp only [hr] at hb
      · have hb2 : b ∈ (updateList id req.Title req.URL s'.bookmarks).2 := hb
        obtain ⟨b0, hb0, hcase⟩ := updateList_mem hb2
        rcases hcase with hcase | hcase
        · exact hcase ▸ ih b0 hb0
        · exact hcase ▸ applyUpdate_nonempty _ _ (ih b0 hb0)
      · have hb2 : b ∈ (updateList id req.Title req.URL s'.bookmarks).2 := hb
        obtain ⟨b0, hb0, hcase⟩ := updateList_mem hb2
        rcases hcase with hcase | hcase
        · exact hcase ▸ ih b0 hb0
        · exact hcase ▸ applyUpdate_nonempty _ _ (ih b0 hb0)
  | del id h ih =>
    rename_i s'
    intro b hb
    have hstate : (handleDeleteBookmark s' id).2 = (Delete s' id).2 := by
      simp only [handleDeleteBookmark]
      split <;> rfl
    rw [hstate] at hb
    have hb2 : b ∈ (deleteList id s'.bookmarks).2 := hb
    exact ih b ((deleteList_sublist id s'.bookmarks).subset hb2)

/-- Witness for C3 at the seeded store and its first record. -/
theorem hreachable_nonempty_fields_witness :
    ({ ID := "1", Title := "Google", URL := "https://google.com", CreatedAt := 0 } :
      Bookmark).Title ≠ "" ∧
    ({ ID := "1", Title := "Google", URL := "https://google.com", CreatedAt := 0 } :
      Bookmark).URL ≠ "" :=
  hreachable_nonempty_fields _ (HReachable.seed 0 0 0) _ (by decide)

/-- **C6 counterexample**: over arbitrary store states the round trip
fails: in the state holding one record with id `"4"` and `nextID = 4`,
`Create` assigns the duplicate id `"4"` and `GetByID` of the returned id
finds the pre-existing record, whose title is not the created one. -/
theorem Create_GetByID_counterexample :
    ((GetByID
        (Create
          { bookmarks := [{ ID := "4", Title := "old", URL := "u", CreatedAt := 0 }],
            nextID := 4 } "Test" "https://x.com" 5).2
        ((Create
          { bookmarks := [{ ID := "4", Title := "old", URL := "u", CreatedAt := 0 }],
            nextID := 4 } "Test" "https://x.com" 5).1.ID)).map Bookmark.Title) ≠
      some "Test" := by
  simp only [Create, GetByID]
  rw [natToDec_four]
  decide

/-- **C6** (amended): for every store state in which no current record
already carries the id `Create` is about to assign — which holds in every
reachable state by C1 — the Create/GetByID round trip yields the created
record: found, with title and url exactly as passed, and a `created_at` not
earlier than the time of the call. -/
theorem Create_GetByID_roundtrip (s : BookmarkStore) (title url : String)
    (now : Nat) (h : ∀ b ∈ s.bookmarks, b.ID ≠ natToDec s.nextID) :
    GetByID (Create s title url now).2 ((Create s title url now).1.ID) =
      some (Create s title url now).1 ∧
    (Create s title url now).1.Title = title ∧
    (Create s title url now).1.URL = url ∧
    now ≤ (Create s title url now).1.CreatedAt := by
  refine ⟨?_, rfl, rfl, Nat.le_refl now⟩
  have hnone : s.bookmarks.find? (fun x => x.ID == natToDec s.nextID) = none :=
    find?_ID_eq_none_iff.mpr h
  show ((s.bookmarks ++ [(Create s title url now).1]).find?
    (fun x => x.ID == natToDec s.nextID)) = some (Create s title url now).1
  rw [List.find?_append, hnone]
  simp [Create]

/-- Witness for the amended C6 at the seeded store. -/
theorem Create_GetByID_roundtrip_witness :
    GetByID (Create (NewBookmarkStore 0 0 0) "Test" "https://x.com" 7).2
        ((Create (NewBookmarkStore 0 0 0) "Test" "https://x.com" 7).1.ID) =
      some (Create (NewBookmarkStore 0 0 0) "Test" "https://x.com" 7).1 ∧
    (Create (NewBookmarkStore 0 0 0) "Test" "https://x.com" 7).1.Title = "Test" ∧
    (Create (NewBookmarkStore 0 0 0) "Test" "https://x.com" 7).1.URL = "https://x.com" ∧
    7 ≤ (Create (NewBookmarkStore 0 0 0) "Test" "https://x.com" 7).1.CreatedAt :=
  Create_GetByID_roundtrip (NewBookmarkStore 0 0 0) "Test" "https://x.com" 7
    (by rw [show (NewBookmarkStore 0 0 0).nextID = 4 from rfl, natToDec_four]; decide)

/-- **C7**: starting from the seeded store (ids `"1"`, `"2"`, `"3"`), a POST
of `{title: "Test", url: "https://x.com"}` returns 201 with a bookmark whose
id is `"4"`; a GET of all bookmarks then returns 4 entries; a DELETE of id
`"2"` returns 200; and a GET of id `"2"` afterwards returns 404. -/
theorem seeded_scenario (t1 t2 t3 now : Nat) :
    (handleCreateBookmark (NewBookmarkStore t1 t2 t3)
        (some { title := some "Test", url := some "https://x.com" }) now).1 = 201 ∧
    ((handleCreateBookmark (NewBookmarkStore t1 t2 t3)
        (some { title := some "Test", url := some "https://x.com" }) now).2.1.map
      Bookmark.ID) = some "4" ∧
    (handleGetBookmarks (handleCreateBookmark (NewBookmarkStore t1 t2 t3)
        (some { title := some "Test", url := some "https://x.com" }) now).2.2).2.length = 4 ∧
    (handleDeleteBookmark (handleCreateBookmark (NewBookmarkStore t1 t2 t3)
        (some { title := some "Test", url := some "https://x.com" }) now).2.2 "2").1 = 200 ∧
    (handleGetBookmark (handleDeleteBookmark (handleCreateBookmark (NewBookmarkStore t1 t2 t3)
        (some { title := some "Test", url := some "https://x.com" }) now).2.2 "2").2 "2").1 =
      404 := by
  have hbind : bindCreateRequest (some { title := some "Test", url := some "https://x.com" }) =
      some { Title := "Test", URL := "https://x.com" } := by decide
  refine ⟨?_, ?_, ?_, ?_, ?_⟩ <;>
    simp [handleCreateBookmark, hbind, Create, NewBookmarkStore, natToDec_four,
      handleGetBookmarks, GetAll, handleDeleteBookmark, Delete, deleteList,
      handleGetBookmark, GetByID]

/-- Witness for C9 at the seeded store, id `"1"`. -/
theorem Update_empty_is_identity_witness :
    Update (NewBookmarkStore 0 0 0) "1" "" "" =
      (some { ID := "1", Title := "Google", URL := "https://google.com", CreatedAt := 0 },
        NewBookmarkStore 0 0 0) ∧
    handleUpdateBookmark (NewBookmarkStore 0 0 0) "1"
        (some { title := none, url := none }) =
      (200, some { ID := "1", Title := "Google", URL := "https://google.com", CreatedAt := 0 },
        NewBookmarkStore 0 0 0) :=
  Update_empty_is_identity (NewBookmarkStore 0 0 0) "1"
    { ID := "1", Title := "Google", URL := "https://google.com", CreatedAt := 0 }
    (by decide)

end WebCollector
